import Mathlib

/-!
Shallow embedding of `gym_snake/envs/snake_env.py`.

Positions are integer pairs `(x, y)`; the board dimensions `(W, H)` are integer
pairs as well.  The process-wide random draws of the Python code
(`np.random.randint`) are threaded explicitly: each draw site receives a natural
number that is reduced modulo the size of the range it is drawn from, and a draw
from an empty range (which raises `ValueError` in numpy) is modelled by `none`.
-/

/-- Integer grid coordinate pair `(x, y)`. -/
abbrev Pos := ℤ × ℤ

/-- The dummy out-of-screen snake piece `(-100, -100)` prepended on eating. -/
def sentinel : Pos := (-100, -100)

/-- `_DIRS` from the source: Right, Up, Left, Down, in that cyclic order. -/
def dirsList : List Pos := [(1, 0), (0, -1), (-1, 0), (0, 1)]

/-- Python tuple comparison `(x, y) < (0, 0)` (lexicographic), the guard used to
skip the dummy piece when painting the board. -/
def pyLtZero (p : Pos) : Bool := decide (p.1 < 0 ∨ (p.1 = 0 ∧ p.2 < 0))

/-- One numpy cell write `board[p.2, p.1] = v`, with the board represented as a
function from `(x, y)` coordinates to cell codes.  This models the in-bounds
write only: on a square board every write the game actually performs lands at
an in-grid coordinate (the dummy piece is skipped by the guard), whereas a
write outside the array shape would raise `IndexError` in numpy.  Theorems
whose states could host such writes therefore carry square-dims and
in-grid-or-sentinel hypotheses. -/
def writeCell (b : Pos → ℕ) (p : Pos) (v : ℕ) : Pos → ℕ :=
  fun q => if q = p then v else b q

/-- `Game._generate_board_with_snake_only`, with the snake list passed
explicitly (the method reads `self.snake`, which differs between its call
sites): every segment but the last is marked 1 unless the Python guard
`(x, y) < (0, 0)` skips it, then the head (last element) is marked 2
unconditionally.  `self.snake[-1]` would raise on an empty snake; the snake is
nonempty in every reachable state, and the default is never relevant under the
nonemptiness hypotheses used below. -/
def paintBody (l : List Pos) : Pos → ℕ :=
  l.foldl (fun b p => if pyLtZero p then b else writeCell b p 1) (fun _ => 0)

/-- The head write of `Game._generate_board_with_snake_only` on top of the body
paint. -/
def snakeOnlyBoard (snake : List Pos) : Pos → ℕ :=
  writeCell (paintBody snake.dropLast) (snake.getLastD sentinel) 2

/-- All grid cells in numpy row-major order (`y` outer, `x` inner), the order in
which `np.where` reports zero entries.  The numpy array is allocated with shape
`dims` but indexed `[y, x]`, which agrees with this `dims.1`-wide by
`dims.2`-tall grid exactly when `dims` is square — the only shape the program
uses (`(10, 10)` in the environment, `(20, 20)` by default); off square dims
the code raises `IndexError` before reaching `np.where`, so statements about
the apple draw carry a square-dims hypothesis. -/
def gridCells (dims : ℤ × ℤ) : List Pos :=
  (List.range dims.2.toNat).flatMap fun y =>
    (List.range dims.1.toNat).map fun x => (Int.ofNat x, Int.ofNat y)

/-- Cells reported empty by `np.where(board == 0)` on the snake-only board. -/
def emptyCells (dims : ℤ × ℤ) (snake : List Pos) : List Pos :=
  (gridCells dims).filter fun p => snakeOnlyBoard snake p == 0

/-- `Game._generate_apple`: pick the empty cell at a uniformly drawn index.  The
raw draw `r` is reduced modulo the number of empty cells; `np.random.randint(0)`
raises, modelled by `none` when no cell is empty. -/
def generate_apple (dims : ℤ × ℤ) (snake : List Pos) (r : ℕ) : Option Pos :=
  (emptyCells dims snake).get? (r % (emptyCells dims snake).length)

/-- The full game state: dimensions, snake (tail-first, head-last), current
heading, apple position. -/
structure Game where
  dims : ℤ × ℤ
  snake : List Pos
  dir : Pos
  apple : Pos
deriving DecidableEq

/-- `Game.generate_board` on a game state. -/
def Game.generate_board (g : Game) : Pos → ℕ :=
  writeCell (snakeOnlyBoard g.snake) g.apple 3

/-- The wrapped new head `tuple(np.add(self.snake[-1], self.dir) % self._dims)`:
componentwise addition followed by componentwise (always-nonnegative) modulo. -/
def Game.newHead (g : Game) : Pos :=
  (((g.snake.getLastD sentinel).1 + g.dir.1).emod g.dims.1,
   ((g.snake.getLastD sentinel).2 + g.dir.2).emod g.dims.2)

/-- `Game.step`, with the apple-respawn random draw passed explicitly.  `none`
models the uncaught numpy exception raised when the respawn has no empty cell to
draw from. -/
def Game.step (g : Game) (r : ℕ) : Option (Game × Bool × Bool) :=
  if g.newHead ∈ g.snake then some (g, true, false)
  else if g.newHead = g.apple then
    match generate_apple g.dims (g.snake.tail ++ [g.newHead]) r with
    | none => none
    | some a =>
        some (⟨g.dims, sentinel :: (g.snake.tail ++ [g.newHead]), g.dir, a⟩,
          false, true)
  else some ({ g with snake := g.snake.tail ++ [g.newHead] }, false, false)

/-- `Game._generate_initial_snake`: a horizontal run of cells at
`y = int(H / 2)` starting at the drawn `x`.  The Python loop appends the first
cell before iterating `size - 1` more times, so the result has one cell even
when `size = 0`. -/
def generate_initial_snake (dims : ℤ × ℤ) (size : ℕ) (x : ℤ) : List Pos :=
  (x, dims.2.ediv 2) ::
    (List.range (size - 1)).map fun i => (x + Int.ofNat i + 1, dims.2.ediv 2)

/-- `Game.__init__`: draw `x = np.random.randint(0, W - size)` (raises, modelled
by `none`, when `W - size ≤ 0`), build the initial horizontal snake, set heading
Right, then place the apple. -/
def Game.new (dims : ℤ × ℤ) (size : ℕ) (rx ra : ℕ) : Option Game :=
  if dims.1 - size ≤ 0 then none
  else
    match generate_apple dims (generate_initial_snake dims size
        ((rx : ℤ).emod (dims.1 - size))) ra with
    | none => none
    | some a =>
        some ⟨dims, generate_initial_snake dims size
          ((rx : ℤ).emod (dims.1 - size)), (1, 0), a⟩

/-- `SnakeEnv` state: the owned game and the `_done` flag. -/
structure EnvState where
  game : Game
  done : Bool
deriving DecidableEq

/-- The `spaces.Discrete(3).contains` check followed by the silent fallback to
action 1 ("do nothing"). -/
def normalizeAction (a : ℤ) : ℤ := if 0 ≤ a ∧ a < 3 then a else 1

/-- The heading update of `SnakeEnv.step`:
`_DIRS[(_DIRS.index(dir) + (action - 1)) % len(_DIRS)]` after normalization. -/
def updateDir (d : Pos) (a : ℤ) : Pos :=
  dirsList.getD ((((dirsList.indexOf d : ℕ) : ℤ) +
    (normalizeAction a - 1)).emod 4).toNat (1, 0)

/-- One observation `(board, reward, done)`; the trailing empty info dict of the
source is omitted. -/
abbrev Obs := (Pos → ℕ) × ℤ × Bool

/-- `SnakeEnv.step`: the new environment state, the observation (`none` is the
invalid-call marker `None` returned after termination), and whether the
termination warning was logged on this call.  The outer `none` models the
uncaught exception of a failed apple respawn.  The `if not self._game` guard of
the source is omitted: the game is constructed in `__init__` and never cleared,
so the field is modelled as always present. -/
def envStep (s : EnvState) (a : ℤ) (r : ℕ) :
    Option (EnvState × Option Obs × Bool) :=
  if s.done then some (s, none, true)
  else
    match ({ s.game with dir := updateDir s.game.dir a } : Game).step r with
    | none => none
    | some (g2, t, ate) =>
        some (⟨g2, t⟩,
          some (g2.generate_board,
            if t then -100 else if ate then 1 else (0 : ℤ), t),
          false)

/-- `SnakeEnv.reset` / `SnakeEnv._reset`, with the environment's fixed dims
`(10, 10)` and default snake size 5: a fresh game, `_done = False`, and the
`(board, 0, False)` observation. -/
def envReset (rx ra : ℕ) : Option (EnvState × Obs) :=
  match Game.new (10, 10) 5 rx ra with
  | none => none
  | some g => some (⟨g, false⟩, (g.generate_board, 0, false))

/-- Membership of a position in the `dims` grid. -/
def inGrid (dims : ℤ × ℤ) (p : Pos) : Prop :=
  0 ≤ p.1 ∧ p.1 < dims.1 ∧ 0 ≤ p.2 ∧ p.2 < dims.2

instance (dims : ℤ × ℤ) (p : Pos) : Decidable (inGrid dims p) := by
  unfold inGrid; infer_instance

/-- The apple avoids every non-sentinel snake cell. -/
def appleOk (g : Game) : Prop := ∀ p ∈ g.snake, p ≠ sentinel → g.apple ≠ p

instance (g : Game) : Decidable (appleOk g) := by
  unfold appleOk; infer_instance

/-! ### Helper lemmas about the board and the apple generator -/

theorem getLastD_eq_getLast_of_ne_nil {l : List Pos} (h : l ≠ []) (d : Pos) :
    l.getLastD d = l.getLast h := by
  rw [List.getLastD_eq_getLast?, List.getLast?_eq_getLast l h]
  rfl

theorem getLastD_mem_of_ne_nil {l : List Pos} (h : l ≠ []) (d : Pos) :
    l.getLastD d ∈ l := by
  rw [getLastD_eq_getLast_of_ne_nil h d]
  exact List.getLast_mem h

theorem mem_dropLast_of_ne_getLastD {l : List Pos} {q d : Pos} (hq : q ∈ l)
    (hne : q ≠ l.getLastD d) : q ∈ l.dropLast := by
  have hl : l ≠ [] := List.ne_nil_of_mem hq
  rw [getLastD_eq_getLast_of_ne_nil hl d] at hne
  rw [← List.dropLast_append_getLast hl] at hq
  rcases List.mem_append.1 hq with h | h
  · exact h
  · exact absurd (List.mem_singleton.1 h) hne

theorem pyLtZero_eq_false_of_nonneg {p : Pos} (h1 : 0 ≤ p.1) (h2 : 0 ≤ p.2) :
    pyLtZero p = false := by
  unfold pyLtZero
  simp only [decide_eq_false_iff_not]
  omega

theorem foldl_write_eval (l : List Pos) (b : Pos → ℕ) (p : Pos) :
    (l.foldl (fun b q => if pyLtZero q then b else writeCell b q 1) b) p
      = if p ∈ l ∧ pyLtZero p = false then 1 else b p := by
  induction l generalizing b with
  | nil => simp
  | cons q l ih =>
    rw [List.foldl_cons, ih]
    by_cases hpq : p = q
    · subst hpq
      by_cases hpy : pyLtZero p
      · simp [hpy]
      · simp only [Bool.not_eq_true] at hpy
        simp [hpy, writeCell]
    · by_cases hpy : pyLtZero q
      · simp only [hpy, if_true, List.mem_cons]
        congr 1
        simp [hpq]
      · simp only [hpy, if_false, List.mem_cons]
        by_cases hpl : p ∈ l ∧ pyLtZero p = false
        · simp [hpl, hpl.1]
        · have hc : ¬ ((p = q ∨ p ∈ l) ∧ pyLtZero p = false) := by
            rintro ⟨hc, hf⟩
            rcases hc with hc | hc
            · exact hpq hc
            · exact hpl ⟨hc, hf⟩
          simp [hpl, hc, hpy, writeCell, hpq]

theorem paintBody_eval (l : List Pos) (p : Pos) :
    paintBody l p = if p ∈ l ∧ pyLtZero p = false then 1 else 0 := by
  unfold paintBody
  rw [foldl_write_eval]

theorem snakeOnlyBoard_eval (s : List Pos) (p : Pos) :
    snakeOnlyBoard s p
      = if p = s.getLastD sentinel then 2
        else if p ∈ s.dropLast ∧ pyLtZero p = false then 1 else 0 := by
  unfold snakeOnlyBoard writeCell
  by_cases h : p = s.getLastD sentinel
  · rw [if_pos h, if_pos h]
  · rw [if_neg h, if_neg h, paintBody_eval]

theorem snakeOnlyBoard_ne_zero {s : List Pos} {q : Pos} (hq : q ∈ s)
    (h1 : 0 ≤ q.1) (h2 : 0 ≤ q.2) : snakeOnlyBoard s q ≠ 0 := by
  rw [snakeOnlyBoard_eval]
  by_cases hl : q = s.getLastD sentinel
  · rw [if_pos hl]
    omega
  · have hd : q ∈ s.dropLast := mem_dropLast_of_ne_getLastD hq hl
    rw [if_neg hl, if_pos ⟨hd, pyLtZero_eq_false_of_nonneg h1 h2⟩]
    omega

theorem mem_gridCells {dims : ℤ × ℤ} {p : Pos} :
    p ∈ gridCells dims ↔ inGrid dims p := by
  unfold gridCells inGrid
  constructor
  · intro h
    rcases List.mem_flatMap.1 h with ⟨y, hy, hp⟩
    rcases List.mem_map.1 hp with ⟨x, hx, rfl⟩
    rw [List.mem_range] at hy hx
    refine ⟨by simp, by simp; omega, by simp, by simp; omega⟩
  · rintro ⟨h1, h2, h3, h4⟩
    refine List.mem_flatMap.2 ⟨p.2.toNat, List.mem_range.2 (by omega), ?_⟩
    refine List.mem_map.2 ⟨p.1.toNat, List.mem_range.2 (by omega), ?_⟩
    have e1 : ((p.1.toNat : ℤ)) = p.1 := by omega
    have e2 : ((p.2.toNat : ℤ)) = p.2 := by omega
    show (((p.1.toNat : ℤ)), ((p.2.toNat : ℤ))) = p
    rw [e1, e2]

theorem mem_emptyCells {dims : ℤ × ℤ} {s : List Pos} {p : Pos} :
    p ∈ emptyCells dims s ↔ p ∈ gridCells dims ∧ snakeOnlyBoard s p = 0 := by
  unfold emptyCells
  simp [List.mem_filter]

theorem generate_apple_mem {dims : ℤ × ℤ} {s : List Pos} {r : ℕ} {a : Pos}
    (h : generate_apple dims s r = some a) : a ∈ emptyCells dims s :=
  List.get?_mem h

theorem generate_apple_isSome (dims : ℤ × ℤ) (s : List Pos) (r : ℕ) :
    (generate_apple dims s r).isSome ↔ emptyCells dims s ≠ [] := by
  unfold generate_apple
  constructor
  · intro h hnil
    rw [hnil] at h
    simp at h
  · intro h
    have hlen : 0 < (emptyCells dims s).length := List.length_pos.2 h
    have hlt : r % (emptyCells dims s).length < (emptyCells dims s).length :=
      Nat.mod_lt _ hlen
    rw [List.get?_eq_get hlt]
    rfl

theorem apple_fresh {dims : ℤ × ℤ} {s : List Pos} {a : Pos}
    (ha : a ∈ emptyCells dims s) : ∀ p ∈ s, a ≠ p := by
  intro p hp heq
  rcases mem_emptyCells.1 ha with ⟨hg, hb⟩
  have hin : inGrid dims a := mem_gridCells.1 hg
  subst heq
  exact snakeOnlyBoard_ne_zero hp hin.1 hin.2.2.1 hb

/-! ### Characterization of `Game.step` -/

theorem step_cases (g : Game) (r : ℕ) :
    (g.newHead ∈ g.snake ∧ g.step r = some (g, true, false))
    ∨ (g.newHead ∉ g.snake ∧ g.newHead = g.apple ∧
        ((generate_apple g.dims (g.snake.tail ++ [g.newHead]) r = none ∧
            g.step r = none)
         ∨ ∃ a, generate_apple g.dims (g.snake.tail ++ [g.newHead]) r = some a ∧
            g.step r = some (⟨g.dims, sentinel :: (g.snake.tail ++ [g.newHead]),
              g.dir, a⟩, false, true)))
    ∨ (g.newHead ∉ g.snake ∧ g.newHead ≠ g.apple ∧
        g.step r = some ({ g with snake := g.snake.tail ++ [g.newHead] },
          false, false)) := by
  by_cases h1 : g.newHead ∈ g.snake
  · left
    exact ⟨h1, by unfold Game.step; rw [if_pos h1]⟩
  · by_cases h2 : g.newHead = g.apple
    · right; left
      refine ⟨h1, h2, ?_⟩
      cases ha : generate_apple g.dims (g.snake.tail ++ [g.newHead]) r with
      | none =>
          left
          exact ⟨rfl, by unfold Game.step; rw [if_neg h1, if_pos h2, ha]⟩
      | some a =>
          right
          exact ⟨a, rfl, by unfold Game.step; rw [if_neg h1, if_pos h2, ha]⟩
    · right; right
      exact ⟨h1, h2, by unfold Game.step; rw [if_neg h1, if_neg h2]⟩

theorem step_dir {g : Game} {r : ℕ} {g' : Game} {t ate : Bool}
    (h : g.step r = some (g', t, ate)) : g'.dir = g.dir := by
  rcases step_cases g r with ⟨_, he⟩ | ⟨_, _, hca | ⟨a, _, he⟩⟩ | ⟨_, _, he⟩
  · rw [he] at h
    cases h
    rfl
  · rw [hca.2] at h
    cases h
  · rw [he] at h
    cases h
    rfl
  · rw [he] at h
    cases h
    rfl

/-! ### Claim C1: pre-move full-body self-collision check -/

/-- C1: `Game.step` tests the wrapped new head against the full pre-move snake
body: termination is reported exactly when the new head is a member of the
pre-move body, in which case the state (snake, heading, apple) is returned
unchanged with `ateApple = false`; in particular a new head equal to the current
tail (the first list element, about to be vacated) is flagged as a collision. -/
theorem c1_collision_pre_move_full_body :
    (∀ (g : Game) (r : ℕ), g.newHead ∈ g.snake → g.step r = some (g, true, false))
    ∧ (∀ (g : Game) (r : ℕ) (out : Game × Bool × Bool), g.step r = some out →
        (out.2.1 = true ↔ g.newHead ∈ g.snake))
    ∧ (∀ (g : Game) (r : ℕ), g.snake.head? = some g.newHead →
        g.step r = some (g, true, false)) := by
  have key : ∀ (g : Game) (r : ℕ), g.newHead ∈ g.snake →
      g.step r = some (g, true, false) := by
    intro g r h
    unfold Game.step
    rw [if_pos h]
  refine ⟨key, ?_, ?_⟩
  · intro g r out hout
    rcases step_cases g r with ⟨hm, he⟩ | ⟨hm, _, hca | ⟨a, _, he⟩⟩ | ⟨hm, _, he⟩
    · rw [he] at hout
      cases hout
      simpa using hm
    · rw [hca.2] at hout
      cases hout
    · rw [he] at hout
      cases hout
      simpa using hm
    · rw [he] at hout
      cases hout
      simpa using hm
  · intro g r h
    exact key g r (List.mem_of_mem_head? h)

/-- A state whose head is about to move onto its own tail cell. -/
def gTail : Game := ⟨(10, 10), [(1, 0), (1, 1), (0, 1), (0, 0)], (1, 0), (5, 5)⟩

/-- Witness for C1: on `gTail` the new head `(1, 0)` equals the current tail
cell, and the step is flagged as a collision with the state frozen. -/
theorem c1_witness : gTail.step 0 = some (gTail, true, false) :=
  c1_collision_pre_move_full_body.2.2 gTail 0 (by decide)

/-! ### Claim C7: toroidal wraparound of the new head -/

/-- C7: the new head of `Game.step` is the componentwise sum of head and heading
taken modulo `(W, H)`; on a positive grid it therefore always lies inside the
grid (moving off an edge re-enters from the opposite edge), and a step reports
termination only because the new head is in the body, never because of the
wraparound itself. -/
theorem c7_wraparound (g : Game) (hW : 0 < g.dims.1) (hH : 0 < g.dims.2) :
    g.newHead = (((g.snake.getLastD sentinel).1 + g.dir.1).emod g.dims.1,
      ((g.snake.getLastD sentinel).2 + g.dir.2).emod g.dims.2)
    ∧ inGrid g.dims g.newHead
    ∧ (∀ (r : ℕ) (out : Game × Bool × Bool), g.step r = some out →
        out.2.1 = true → g.newHead ∈ g.snake) := by
  refine ⟨rfl, ?_, ?_⟩
  · exact ⟨Int.emod_nonneg _ (by omega), Int.emod_lt_of_pos _ hW,
      Int.emod_nonneg _ (by omega), Int.emod_lt_of_pos _ hH⟩
  · intro r out hout ht
    rcases step_cases g r with ⟨hm, he⟩ | ⟨hm, _, hca | ⟨a, _, he⟩⟩ | ⟨hm, _, he⟩
    · exact hm
    · rw [hca.2] at hout
      cases hout
    · rw [he] at hout
      cases hout
      cases ht
    · rw [he] at hout
      cases hout
      cases ht

/-- A head on the right edge about to move right. -/
def gEdge : Game := ⟨(10, 10), [(9, 5)], (1, 0), (0, 0)⟩

/-- Witness for C7: stepping off the right edge re-enters at `x = 0`. -/
theorem c7_witness : inGrid gEdge.dims gEdge.newHead ∧ gEdge.newHead = (0, 5) :=
  ⟨(c7_wraparound gEdge (by decide) (by decide)).2.1, by decide⟩

/-! ### Claim C5: snake length accounting -/

/-- C5: on a non-terminating step the snake's length (sentinel included) grows
by exactly 1 when the apple is eaten and is unchanged otherwise; the length
stays at least 1 and never shrinks. -/
theorem c5_length (g : Game) (r : ℕ) (g' : Game) (ate : Bool)
    (hne : g.snake ≠ []) (h : g.step r = some (g', false, ate)) :
    g'.snake.length = g.snake.length + (if ate then 1 else 0)
    ∧ 1 ≤ g'.snake.length ∧ g.snake.length ≤ g'.snake.length := by
  have hlen : 1 ≤ g.snake.length := List.length_pos.2 hne
  rcases step_cases g r with ⟨hm, he⟩ | ⟨hm, hap, hca | ⟨a, hga, he⟩⟩ |
    ⟨hm, hap, he⟩
  · rw [he] at h
    simp at h
  · rw [hca.2] at h
    cases h
  · rw [he] at h
    simp only [Option.some.injEq, Prod.mk.injEq] at h
    obtain ⟨hg, -, hate⟩ := h
    subst hg
    subst hate
    simp [List.length_append, List.length_tail]
    omega
  · rw [he] at h
    simp only [Option.some.injEq, Prod.mk.injEq] at h
    obtain ⟨hg, -, hate⟩ := h
    subst hg
    subst hate
    simp [List.length_append, List.length_tail]
    omega

/-- A state one cell away from the apple. -/
def gEat : Game := ⟨(10, 10), [(0, 5), (1, 5)], (1, 0), (2, 5)⟩

/-- The state after `gEat` eats: dummy piece prepended, apple respawned at the
first empty cell in row-major order. -/
def gEatStepped : Game :=
  ⟨(10, 10), [(-100, -100), (1, 5), (2, 5)], (1, 0), (0, 0)⟩

/-- Witness for C5: the eat step grows the snake from 2 to 3 segments. -/
theorem c5_witness :
    gEatStepped.snake.length = gEat.snake.length + (if true then 1 else 0)
    ∧ 1 ≤ gEatStepped.snake.length
    ∧ gEat.snake.length ≤ gEatStepped.snake.length :=
  c5_length gEat 0 gEatStepped true (by decide) (by decide)

/-! ### Claim C4: the apple never overlaps the snake -/

/-- C4: a freshly constructed game has its apple off every snake cell, and a
successful step preserves the property that the apple differs from every
non-sentinel snake cell; moreover on an eat step the respawned apple is drawn
from the cells empty with respect to the post-tail-drop updated body (new head
included, dummy piece not yet prepended). -/
theorem c4_apple_nonoverlap :
    (∀ (dims : ℤ × ℤ) (size rx ra : ℕ) (g : Game),
        Game.new dims size rx ra = some g → appleOk g)
    ∧ (∀ (g : Game) (r : ℕ) (g' : Game) (t ate : Bool), appleOk g →
        g.step r = some (g', t, ate) →
        appleOk g'
        ∧ (ate = true →
            g'.apple ∈ emptyCells g.dims (g.snake.tail ++ [g.newHead]))) := by
  constructor
  · intro dims size rx ra g h
    unfold Game.new at h
    by_cases hd : dims.1 - (size : ℤ) ≤ 0
    · rw [if_pos hd] at h
      cases h
    · rw [if_neg hd] at h
      cases ha : generate_apple dims (generate_initial_snake dims size
          ((rx : ℤ).emod (dims.1 - (size : ℤ)))) ra with
      | none =>
          rw [ha] at h
          cases h
      | some a =>
          rw [ha] at h
          cases h
          intro p hp hps
          exact apple_fresh (generate_apple_mem ha) p hp
  · intro g r g' t ate hok h
    rcases step_cases g r with ⟨hm, he⟩ | ⟨hm, hap, hca | ⟨a, hga, he⟩⟩ |
      ⟨hm, hap, he⟩
    · rw [he] at h
      simp only [Option.some.injEq, Prod.mk.injEq] at h
      obtain ⟨hg, -, hate⟩ := h
      subst hg
      subst hate
      exact ⟨hok, by intro hc; cases hc⟩
    · rw [hca.2] at h
      cases h
    · rw [he] at h
      simp only [Option.some.injEq, Prod.mk.injEq] at h
      obtain ⟨hg, -, hate⟩ := h
      subst hg
      subst hate
      constructor
      · intro p hp hps
        rcases List.mem_cons.1 hp with hps' | hp1
        · exact absurd hps' hps
        · exact apple_fresh (generate_apple_mem hga) p hp1
      · intro hc
        exact generate_apple_mem hga
    · rw [he] at h
      simp only [Option.some.injEq, Prod.mk.injEq] at h
      obtain ⟨hg, -, hate⟩ := h
      subst hg
      subst hate
      constructor
      · intro p hp hps
        rcases List.mem_append.1 hp with hp1 | hp1
        · exact hok p ((List.tail_sublist g.snake).subset hp1) hps
        · rw [List.mem_singleton.1 hp1]
          exact fun hc => hap hc.symm
      · intro hc
        cases hc

/-- The freshly constructed game for draws `(0, 0)` on the `(10, 10)` board. -/
def gNew0 : Game :=
  ⟨(10, 10), [(0, 5), (1, 5), (2, 5), (3, 5), (4, 5)], (1, 0), (0, 0)⟩

/-- A mid-game state used by several witnesses. -/
def gRun : Game := ⟨(10, 10), [(0, 5), (1, 5)], (1, 0), (9, 9)⟩

/-- `gRun` after a plain (no-eat, no-collision) step. -/
def gRunStepped : Game := ⟨(10, 10), [(1, 5), (2, 5)], (1, 0), (9, 9)⟩

/-- Witness for C4: the fresh game's apple misses the snake, and the property
is preserved across a concrete plain step. -/
theorem c4_witness :
    appleOk gNew0
    ∧ (appleOk gRunStepped ∧ (false = true →
        gRunStepped.apple ∈ emptyCells (10, 10) [(1, 5), (2, 5)])) :=
  ⟨c4_apple_nonoverlap.1 (10, 10) 5 0 0 gNew0 (by decide),
   c4_apple_nonoverlap.2 gRun 0 gRunStepped false false (by decide) (by decide)⟩

/-! ### Claim C8: board snapshot construction -/

/-- The board construction exactly as the spec words it: start empty, mark every
non-head segment whose position is non-negative in both coordinates as body (1),
mark the head unconditionally (2, overwriting body), mark the apple last (3,
overwriting everything). -/
def boardSpec (g : Game) : Pos → ℕ := fun p =>
  if p = g.apple then 3
  else if p = g.snake.getLastD sentinel then 2
  else if p ∈ g.snake.dropLast ∧ 0 ≤ p.1 ∧ 0 ≤ p.2 then 1
  else 0

/-- C8: on any state whose snake cells are in-grid or the sentinel (true of
every reachable state), `Game.generate_board` is the pure function described by
the spec: body marks for non-sentinel non-head segments, head unconditionally
overwriting body, apple last overwriting everything.  In particular the guard
`(x, y) < (0, 0)` of the source agrees with the spec's "non-negative in both
coordinates" test on all such cells. -/
theorem c8_board_snapshot (g : Game)
    (h : ∀ p ∈ g.snake, inGrid g.dims p ∨ p = sentinel) :
    g.generate_board = boardSpec g := by
  funext p
  unfold Game.generate_board boardSpec writeCell
  by_cases hap : p = g.apple
  · rw [if_pos hap, if_pos hap]
  · rw [if_neg hap, if_neg hap, snakeOnlyBoard_eval]
    by_cases hh : p = g.snake.getLastD sentinel
    · rw [if_pos hh, if_pos hh]
    · rw [if_neg hh, if_neg hh]
      by_cases hm : p ∈ g.snake.dropLast
      · have hs : p ∈ g.snake := (List.dropLast_sublist g.snake).subset hm
        rcases h p hs with hin | hsen
        · rw [if_pos ⟨hm, pyLtZero_eq_false_of_nonneg hin.1 hin.2.2.1⟩,
            if_pos ⟨hm, hin.1, hin.2.2.1⟩]
        · subst hsen
          rw [if_neg (by rintro ⟨-, hf⟩; revert hf; decide),
            if_neg (by rintro ⟨-, h1, -⟩; revert h1; decide)]
      · rw [if_neg (by rintro ⟨hc, -⟩; exact hm hc),
          if_neg (by rintro ⟨hc, -⟩; exact hm hc)]

/-- A post-eat state carrying the dummy sentinel piece. -/
def gSent : Game := ⟨(10, 10), [(-100, -100), (0, 5), (1, 5)], (1, 0), (3, 3)⟩

/-- Witness for C8 on a state containing the sentinel piece. -/
theorem c8_witness : gSent.generate_board = boardSpec gSent :=
  c8_board_snapshot gSent (by decide)

/-! ### Claim C2: reward mapping -/

/-- C2: on any live (non-terminated) environment step whose game step succeeds,
the reward returned is `-100` if the step terminated, else `+1` if the apple was
eaten, else `0` — the termination reward takes precedence over the eat
reward. -/
theorem c2_reward_mapping (s : EnvState) (a : ℤ) (r : ℕ) (g' : Game)
    (t ate : Bool) (hdone : s.done = false)
    (hstep : ({ s.game with dir := updateDir s.game.dir a } : Game).step r
      = some (g', t, ate)) :
    envStep s a r = some (⟨g', t⟩,
      some (g'.generate_board, if t then -100 else if ate then 1 else 0, t),
      false) := by
  unfold envStep
  rw [hdone, hstep]
  rfl

/-- A live environment about to die by self-collision. -/
def eTail : EnvState := ⟨gTail, false⟩

/-- Witness for C2: the concrete dying step is rewarded `-100`. -/
theorem c2_witness :
    envStep eTail 1 0 = some (⟨gTail, true⟩,
      some (gTail.generate_board, -100, true), false) :=
  c2_reward_mapping eTail 1 0 gTail true false rfl (by decide)

/-! ### Claim C3: termination freeze and reset -/

/-- C3: once `done` is set, every step call returns the invalid-call marker
(`None`), logs the warning, and leaves the whole environment state (board,
snake, heading, apple) untouched; `reset` produces a state with `done = false`
(Active) again. -/
theorem c3_termination_freeze :
    (∀ (s : EnvState) (a : ℤ) (r : ℕ), s.done = true →
        envStep s a r = some (s, none, true))
    ∧ (∀ (rx ra : ℕ) (e : EnvState) (o : Obs),
        envReset rx ra = some (e, o) → e.done = false) := by
  constructor
  · intro s a r h
    unfold envStep
    rw [h]
    rfl
  · intro rx ra e o h
    unfold envReset at h
    cases hg : Game.new (10, 10) 5 rx ra with
    | none =>
        rw [hg] at h
        cases h
    | some g =>
        rw [hg] at h
        simp only [Option.some.injEq, Prod.mk.injEq] at h
        obtain ⟨h1, -⟩ := h
        rw [← h1]

/-- A terminated environment wrapping `gTail`. -/
def eDone : EnvState := ⟨gTail, true⟩

/-- Witness for C3: a frozen step on a terminated state, and a concrete reset
returning to Active. -/
theorem c3_witness :
    envStep eDone 2 0 = some (eDone, none, true)
    ∧ (⟨gNew0, false⟩ : EnvState).done = false :=
  ⟨c3_termination_freeze.1 eDone 2 0 rfl,
   c3_termination_freeze.2 0 0 ⟨gNew0, false⟩
     (gNew0.generate_board, 0, false) (by rfl)⟩

/-! ### Claim C6: permissive action normalization and relative turning -/

/-- The heading update exactly as the spec words it: index
`(current_heading_index + (action - 1)) mod 4` into the canonical cyclic order
Right, Up, Left, Down. -/
def headingSpec (d : Pos) (a : ℤ) : Pos :=
  dirsList.getD ((((dirsList.indexOf d : ℕ) : ℤ) + (a - 1)).emod 4).toNat (1, 0)

/-- C6: an action outside `0, 1, 2` is silently replaced by 1 (the whole step
behaves exactly as a step with action 1 — no rejection, no error), and for an
in-range action the new heading is the entry at index
`(current_index + (action - 1)) mod 4` of the canonical order Right, Up, Left,
Down — turns are relative to the current heading. -/
theorem c6_action_normalization :
    (∀ (s : EnvState) (a : ℤ) (r : ℕ), ¬ (0 ≤ a ∧ a < 3) →
        envStep s a r = envStep s 1 r)
    ∧ (∀ d ∈ dirsList, ∀ a : ℤ, a = 0 ∨ a = 1 ∨ a = 2 →
        updateDir d a = headingSpec d a) := by
  constructor
  · intro s a r h
    have h1 : normalizeAction a = normalizeAction 1 := by
      unfold normalizeAction
      rw [if_neg h, if_pos (by constructor <;> decide)]
    unfold envStep updateDir
    rw [h1]
  · intro d hd a ha
    simp only [dirsList, List.mem_cons, List.not_mem_nil, or_false] at hd
    rcases hd with rfl | rfl | rfl | rfl <;>
      rcases ha with rfl | rfl | rfl <;> decide

/-- Witness for C6: action 7 behaves like action 1, and action 0 turns the
Right heading as the spec's indexing formula says. -/
theorem c6_witness :
    envStep eTail 7 0 = envStep eTail 1 0
    ∧ updateDir (1, 0) 0 = headingSpec (1, 0) 0 :=
  ⟨c6_action_normalization.1 eTail 7 0 (by decide),
   c6_action_normalization.2 (1, 0) (by decide) 0 (Or.inl rfl)⟩

/-! ### Claim C9: relative turning is a 4-cycle -/

/-- C9: a successful live environment step leaves the game heading exactly at
`updateDir` of the pre-step heading and the action (the game step itself never
changes the heading), and four consecutive actions 0 return every canonical
heading — in particular Right — to itself: the relative-turn update is a cyclic
permutation of order 4 on the heading set. -/
theorem c9_cyclic_turning :
    (∀ (s : EnvState) (a : ℤ) (r : ℕ) (e' : EnvState) (o : Option Obs)
        (w : Bool), s.done = false → envStep s a r = some (e', o, w) →
        e'.game.dir = updateDir s.game.dir a)
    ∧ List.foldl updateDir (1, 0) [0, 0, 0, 0] = ((1, 0) : Pos)
    ∧ List.foldl updateDir (0, -1) [0, 0, 0, 0] = ((0, -1) : Pos)
    ∧ List.foldl updateDir (-1, 0) [0, 0, 0, 0] = ((-1, 0) : Pos)
    ∧ List.foldl updateDir (0, 1) [0, 0, 0, 0] = ((0, 1) : Pos) := by
  refine ⟨?_, by decide, by decide, by decide, by decide⟩
  intro s a r e' o w hdone h
  unfold envStep at h
  rw [hdone] at h
  cases hst : ({ s.game with dir := updateDir s.game.dir a } : Game).step r with
  | none =>
      rw [hst] at h
      simp at h
  | some out =>
      obtain ⟨g2, t, ate⟩ := out
      rw [hst] at h
      simp only [Bool.false_eq_true, if_false, Option.some.injEq,
        Prod.mk.injEq] at h
      obtain ⟨he, -, -⟩ := h
      rw [← he]
      exact step_dir hst

/-- `gRun` stepped with action 0 (turn toward Down). -/
def gRunTurned : Game := ⟨(10, 10), [(1, 5), (1, 6)], (0, 1), (9, 9)⟩

/-- Witness for C9: the concrete live step with action 0 sets the heading to
`updateDir` of Right and action 0. -/
theorem c9_witness : gRunTurned.dir = updateDir (1, 0) 0 :=
  c9_cyclic_turning.1 ⟨gRun, false⟩ 0 0 ⟨gRunTurned, false⟩
    (some (gRunTurned.generate_board, 0, false)) false rfl (by rfl)

/-! ### Claim C10: apple respawn is defined iff an empty cell exists -/

theorem grid_aux_length (W H : ℕ) :
    ((List.range H).flatMap fun y =>
      (List.range W).map fun x => ((Int.ofNat x, Int.ofNat y) : Pos)).length
    = W * H := by
  induction H with
  | zero => simp
  | succ n ih =>
      rw [List.range_succ, List.flatMap_append, List.length_append, ih]
      simp [Nat.mul_succ]

theorem grid_aux_nodup (W H : ℕ) :
    ((List.range H).flatMap fun y =>
      (List.range W).map fun x => ((Int.ofNat x, Int.ofNat y) : Pos)).Nodup := by
  rw [List.nodup_flatMap]
  constructor
  · intro y hy
    refine List.Nodup.map ?_ (List.nodup_range W)
    intro a b hab
    have h3 : ((a : ℕ) : ℤ) = ((b : ℕ) : ℤ) := congrArg Prod.fst hab
    omega
  · have hr : (List.range H).Pairwise (· ≠ ·) := List.nodup_range H
    refine hr.imp ?_
    intro a b hne p hpa hpb
    rcases List.mem_map.1 hpa with ⟨xa, -, ha⟩
    rcases List.mem_map.1 hpb with ⟨xb, -, hb⟩
    rw [← ha] at hb
    have h2 : ((b : ℕ) : ℤ) = ((a : ℕ) : ℤ) := congrArg Prod.snd hb
    exact hne (by omega)

theorem gridCells_length (dims : ℤ × ℤ) :
    (gridCells dims).length = dims.1.toNat * dims.2.toNat :=
  grid_aux_length dims.1.toNat dims.2.toNat

theorem gridCells_nodup (dims : ℤ × ℤ) : (gridCells dims).Nodup :=
  grid_aux_nodup dims.1.toNat dims.2.toNat

theorem gridCells_toFinset_card (dims : ℤ × ℤ) :
    (gridCells dims).toFinset.card = dims.1.toNat * dims.2.toNat := by
  rw [List.toFinset_card_of_nodup (gridCells_nodup dims), gridCells_length]

/-- C10: on square boards whose cells are in-grid or the sentinel — exactly the
region the program inhabits (`SnakeEnv` fixes `(10, 10)`, `Game` defaults to
`(20, 20)`; off square dims the numpy array of shape `dims` indexed `[y, x]` is
transposed and raises `IndexError` before reaching the draw) — the apple
respawn is well-defined exactly when at least one grid cell is off the snake at
the moment of respawn; an eat step whose post-tail-drop updated body (new head
included) covers strictly fewer than `W * H` grid cells succeeds, and an eat
step after which the updated body covers every grid cell fails (the
`np.random.randint(0)` draw raises, modelled `none`) instead of reporting a
win. -/
theorem c10_respawn_definedness :
    (∀ (dims : ℤ × ℤ) (s : List Pos) (r : ℕ), dims.1 = dims.2 →
        (∀ p ∈ s, inGrid dims p ∨ p = sentinel) →
        ((generate_apple dims s r).isSome ↔ emptyCells dims s ≠ []))
    ∧ (∀ (g : Game) (r : ℕ), g.dims.1 = g.dims.2 →
        (∀ p ∈ g.snake.tail ++ [g.newHead], inGrid g.dims p ∨ p = sentinel) →
        g.newHead ∉ g.snake → g.newHead = g.apple →
        ((g.snake.tail ++ [g.newHead]).filter
            (fun p => decide (inGrid g.dims p))).toFinset.card
          < g.dims.1.toNat * g.dims.2.toNat →
        (g.step r).isSome)
    ∧ (∀ (g : Game) (r : ℕ), g.dims.1 = g.dims.2 →
        (∀ p ∈ g.snake.tail ++ [g.newHead], inGrid g.dims p ∨ p = sentinel) →
        g.newHead ∉ g.snake → g.newHead = g.apple →
        (∀ q, inGrid g.dims q → q ∈ g.snake.tail ++ [g.newHead]) →
        g.step r = none) := by
  refine ⟨?_, ?_, ?_⟩
  · intro dims s r hsq hcells
    exact generate_apple_isSome dims s r
  · intro g r hsq hcells hni he hcard
    have hnil : emptyCells g.dims (g.snake.tail ++ [g.newHead]) ≠ [] := by
      intro hnil
      have hsub : (gridCells g.dims).toFinset ⊆
          ((g.snake.tail ++ [g.newHead]).filter
            (fun p => decide (inGrid g.dims p))).toFinset := by
        intro q hq
        rw [List.mem_toFinset] at hq ⊢
        have hin : inGrid g.dims q := mem_gridCells.1 hq
        have hb : snakeOnlyBoard (g.snake.tail ++ [g.newHead]) q ≠ 0 := by
          intro h0
          have hmem : q ∈ emptyCells g.dims (g.snake.tail ++ [g.newHead]) :=
            mem_emptyCells.2 ⟨hq, h0⟩
          rw [hnil] at hmem
          cases hmem
        have hq1 : q ∈ g.snake.tail ++ [g.newHead] := by
          rw [snakeOnlyBoard_eval] at hb
          by_cases h2 : q = (g.snake.tail ++ [g.newHead]).getLastD sentinel
          · rw [h2]
            exact getLastD_mem_of_ne_nil (by simp) sentinel
          · rw [if_neg h2] at hb
            by_cases h3 : q ∈ (g.snake.tail ++ [g.newHead]).dropLast ∧
                pyLtZero q = false
            · exact (List.dropLast_sublist _).subset h3.1
            · rw [if_neg h3] at hb
              exact absurd rfl hb
        rw [List.mem_filter]
        exact ⟨hq1, by simp [hin]⟩
      have hcard2 := Finset.card_le_card hsub
      rw [gridCells_toFinset_card] at hcard2
      omega
    rcases Option.isSome_iff_exists.1
        ((generate_apple_isSome g.dims (g.snake.tail ++ [g.newHead]) r).2 hnil)
      with ⟨a, ha⟩
    rcases step_cases g r with ⟨hm, -⟩ | ⟨-, -, ⟨hnone, -⟩ | ⟨a2, ha2, he2⟩⟩ |
      ⟨-, hap, -⟩
    · exact absurd hm hni
    · rw [hnone] at ha
      cases ha
    · rw [he2]
      rfl
    · exact absurd he hap
  · intro g r hsq hcells hni he hcover
    have hnil : emptyCells g.dims (g.snake.tail ++ [g.newHead]) = [] := by
      rw [List.eq_nil_iff_forall_not_mem]
      intro q hq
      rcases mem_emptyCells.1 hq with ⟨hg, h0⟩
      have hin := mem_gridCells.1 hg
      exact snakeOnlyBoard_ne_zero (hcover q hin) hin.1 hin.2.2.1 h0
    have hga : generate_apple g.dims (g.snake.tail ++ [g.newHead]) r = none := by
      unfold generate_apple
      rw [hnil]
      rfl
    unfold Game.step
    rw [if_neg hni, if_pos he, hga]

/-- A square `2 × 2` board where eating leaves three free cells for the
respawn. -/
def gSqEat : Game := ⟨(2, 2), [(0, 0)], (1, 0), (1, 0)⟩

/-- A square `2 × 2` board (carrying the dummy piece of a previous eat) where
the eat step makes the updated body cover every grid cell. -/
def gSqFull : Game :=
  ⟨(2, 2), [(-100, -100), (0, 1), (1, 1), (1, 0)], (-1, 0), (0, 0)⟩

/-- Witness for C10: on the square `2 × 2` boards, the respawn drawing from the
one-segment body is defined, the under-full eat step succeeds, and the
board-filling eat step fails with the undefined respawn. -/
theorem c10_witness :
    ((generate_apple (2, 2) [((1 : ℤ), (0 : ℤ))] 0).isSome ↔
      emptyCells (2, 2) [((1 : ℤ), (0 : ℤ))] ≠ [])
    ∧ (gSqEat.step 0).isSome ∧ gSqFull.step 0 = none :=
  ⟨c10_respawn_definedness.1 (2, 2) [((1 : ℤ), (0 : ℤ))] 0 (by decide)
     (by decide),
   c10_respawn_definedness.2.1 gSqEat 0 (by decide) (by decide) (by decide)
     (by decide) (by decide),
   c10_respawn_definedness.2.2 gSqFull 0 (by decide) (by decide) (by decide)
     (by decide)
     (by
       intro q hq
       have hq2 : 0 ≤ q.1 ∧ q.1 < 2 ∧ 0 ≤ q.2 ∧ q.2 < 2 := hq
       obtain ⟨h1, h2, h3, h4⟩ := hq2
       have hx : q.1 = 0 ∨ q.1 = 1 := by omega
       have hy : q.2 = 0 ∨ q.2 = 1 := by omega
       have hq3 : q = ((0 : ℤ), (0 : ℤ)) ∨ q = (0, 1) ∨ q = (1, 0)
           ∨ q = (1, 1) := by
         rcases hx with hx | hx <;> rcases hy with hy | hy
         · exact Or.inl (Prod.ext hx hy)
         · exact Or.inr (Or.inl (Prod.ext hx hy))
         · exact Or.inr (Or.inr (Or.inl (Prod.ext hx hy)))
         · exact Or.inr (Or.inr (Or.inr (Prod.ext hx hy)))
       rcases hq3 with rfl | rfl | rfl | rfl <;> decide)⟩
